import Mathlib

/-!
Verification of the notetaker video-processing pipeline.

Shallow embedding of the backend pipeline code:
* `src/backend/app/services/audio_service.py` (chunk splitting),
* `src/backend/app/services/transcription_service.py` (single and chunked
  transcription, fallback model, offset recombination, semaphore gating),
* `src/backend/app/services/video_service.py` (the per-job orchestrator
  `process_video`),
* `src/backend/app/worker.py` (the Cloud Tasks entry point
  `process_video_task` with its idempotency guard).

Modelling conventions: Python floats are modelled as rationals (the code
applies no rounding to offsets); byte sizes are naturals; effectful
collaborator calls (ffmpeg, R2 download, the OpenAI transcription API, the
LLM note generator, the database) are inputs of the embedded functions, and
each embedded function additionally reports the status values it persisted,
the records it added and the collaborator calls it made, so that claims
about mutation order and call counts can be stated.
-/

namespace Notetaker

/-- One timestamped transcript segment, the Python dict with keys
start, end, text built in transcription_service.py. The field `stop`
stands for the key named end in the source (a Lean keyword). -/
structure Segment where
  start : ℚ
  stop : ℚ
  text : String
  deriving DecidableEq, Repr

/-- Shift both timestamps of a segment by an offset, as done in the
recombination loop of transcribe_audio_chunks (lines 172-177). -/
def Segment.shift (g : Segment) (off : ℚ) : Segment :=
  { g with start := g.start + off, stop := g.stop + off }

/-! ## audio_service.py -/

/-- Bytes in the given number of mebibytes, the expression
mb * 1024 * 1024 used throughout the source. -/
def mb_bytes (mb : Nat) : Nat := mb * 1024 * 1024

/-- Name of the i-th produced chunk file,
f-string base_chunk_{i+1:03d}.mp3 of audio_service.py line 169
(the zero padding is irrelevant to the embedding). -/
def chunk_path (base : String) (i : Nat) : String :=
  base ++ "_chunk_" ++ toString (i + 1) ++ ".mp3"

/-- split_audio_into_chunks (audio_service.py lines 116-192), success path.
audio_size models os.path.getsize audio_path; chunkSize models the size of
the i-th chunk file produced by ffmpeg. The Python float expression
int((audio_size / max_chunk_bytes) + 1) is embedded as exact natural
floor division plus one. The subprocess failure paths (which discard all
incomplete chunk sets and re-raise) do not return a chunk list and are outside
this function. -/
def split_audio_into_chunks (audio_path : String) (audio_size : Nat)
    (max_chunk_size_mb : Nat) (chunkSize : Nat → Nat) : List (String × Nat) :=
  let max_chunk_bytes := mb_bytes max_chunk_size_mb
  if audio_size ≤ max_chunk_bytes then
    [(audio_path, audio_size)]
  else
    let num_chunks := audio_size / max_chunk_bytes + 1
    (List.range num_chunks).map (fun i => (chunk_path audio_path i, chunkSize i))

/-- Ceiling division on naturals: the ceil(size / threshold) chunk count
that the specification section 4.3 prescribes, written down for comparison
with the count the source computes. -/
def ceil_div (a b : Nat) : Nat := (a + b - 1) / b

/-! ## transcription_service.py -/

/-- The two model identifiers read from app.config settings that
transcribe_audio consults (config.py lines 16-17). A falsy (empty)
fallback string disables the fallback, as in the Python truthiness test. -/
structure TransSettings where
  transcription_model : String
  transcription_fallback_model : String
  deriving DecidableEq, Repr

/-- Outcome of one OpenAI transcription API request: given a file path and
a model identifier, either an error message or the transcript text with its
timestamped segments. This is the collaborator behind
client.audio.transcriptions.create. -/
abbrev TransOracle := String → String → Except String (String × List Segment)

/-- One attempt of the try block of transcribe_audio (lines 42-74): the API
call followed by the empty-transcript check, whose raise is itself caught
by the except clause and therefore behaves like a failed call. -/
def attemptTranscribe (oracle : TransOracle) (path m : String) :
    Except String (String × List Segment) :=
  match oracle path m with
  | .error e => .error e
  | .ok (t, segs) => if t = "" then .error "Empty transcript returned" else .ok (t, segs)

/-- transcribe_audio (transcription_service.py lines 14-91) with explicit
recursion fuel. Returns the result together with the list of model
identifiers attempted, in order; none models fuel exhaustion, which cannot
occur when the fallback model differs from the primary model (the
recursive call at lines 84-86 then passes a model for which the retry
condition at lines 79-82 is false). On success the model actually used is
returned, as in the source; a failed fallback falls through to the
original error (line 88). -/
def transcribe_audioF (oracle : TransOracle) (s : TransSettings) (fuel : Nat)
    (path : String) (model : Option String) :
    Option (Except String (String × String × List Segment) × List String) :=
  let m := model.getD s.transcription_model
  match attemptTranscribe oracle path m with
  | .ok (t, segs) => some (.ok (t, m, segs), [m])
  | .error e =>
    if m = s.transcription_model ∧ s.transcription_fallback_model ≠ "" then
      match fuel with
      | 0 => none
      | fuel + 1 =>
        match transcribe_audioF oracle s fuel path (some s.transcription_fallback_model) with
        | none => none
        | some (.ok r, tr) => some (.ok r, m :: tr)
        | some (.error _, tr) =>
            some (.error ("Transcription failed: " ++ e), m :: tr)
    else some (.error ("Transcription failed: " ++ e), [m])

/-- transcribe_audio with the fuel fixed at 2, which is exact whenever the
configured fallback model differs from the primary model (see
transcribe_audioF_fuel_irrelevant). -/
def transcribe_audioT (oracle : TransOracle) (s : TransSettings)
    (path : String) (model : Option String) :
    Except String (String × String × List Segment) × List String :=
  (transcribe_audioF oracle s 2 path model).getD
    (.error "Transcription failed: recursion", [])

/-- Collect a list of per-chunk outcomes: the first error (in chunk index
order) aborts the whole operation, as the asyncio.gather call at line 160
re-raises when any task raises. -/
def collectExcept : List (Except String α) → Except String (List α)
  | [] => .ok []
  | .error e :: _ => .error e
  | .ok a :: rest => (collectExcept rest).map (fun l => a :: l)

/-- One step of the recombination loop of transcribe_audio_chunks
(lines 170-181): append the segments of one chunk, each shifted by the
running offset, then advance the offset to the end of the last appended
segment when the chunk had any segments. -/
def combineChunk (acc : List Segment × ℚ) (segs : List Segment) :
    List Segment × ℚ :=
  let shifted := segs.map (fun g => Segment.shift g acc.2)
  match shifted.getLast? with
  | some g => (acc.1 ++ shifted, g.stop)
  | none => (acc.1 ++ shifted, acc.2)

/-- The combined segment list of the recombination loop, starting from the
empty list and time_offset = 0 (lines 167-168). -/
def combineSegments (rs : List (List Segment)) : List Segment :=
  (rs.foldl combineChunk ([], 0)).1

/-- The running offset after processing the given chunk results. -/
def offsetAfter (rs : List (List Segment)) : ℚ :=
  (rs.foldl combineChunk ([], 0)).2

/-- Key order used by results.sort at line 163: compare chunk indices. -/
def resKey (a b : Nat × String × List Segment) : Prop := a.1 ≤ b.1

instance : DecidableRel resKey := fun a b => Nat.decLe a.1 b.1

instance : IsTotal (Nat × String × List Segment) resKey :=
  ⟨fun a b => Nat.le_total a.1 b.1⟩

instance : IsTrans (Nat × String × List Segment) resKey :=
  ⟨fun _ _ _ h1 h2 => Nat.le_trans h1 h2⟩

/-- Merge a list of indexed per-chunk results, in whatever order they
arrived: sort by chunk index (line 163), join the transcripts with single
spaces (line 166) and recombine the segments with the cumulative offset
(lines 167-181). -/
def mergeFromResults (l : List (Nat × String × List Segment)) :
    String × List Segment :=
  let sorted := List.insertionSort resKey l
  (String.intercalate " " (sorted.map (fun r => r.2.1)),
   combineSegments (sorted.map (fun r => r.2.2)))

/-- transcribe_audio_chunks (transcription_service.py lines 94-191),
denotationally. Returns the result together with the trace of
(path, model) transcription attempts made. The empty-chunk check at lines
111-112 precedes everything, including the try block, so its error is not
wrapped. The tasks created by gather run to completion in any case, so the
trace lists the attempts of every chunk in index order; gather returns the
results in task submission order, so the sort by index recombines them in
chunk order regardless of completion order (see the order-independence
theorem for the permutation claim). max_concurrent gates only the timing
of the calls (modelled separately as a transition system) and does not
affect the returned value. chunkRun is the body of one
transcribe_chunk_async task (lines 125-146): a transcribe_audio call for
the chunk path with the resolved model, paired with its attempt trace. -/
def chunkRun (oracle : TransOracle) (s : TransSettings) (m : String)
    (c : String × Nat) :
    Except String (String × String × List Segment) × List (String × String) :=
  let r := transcribe_audioT oracle s c.1 (some m)
  (r.1, r.2.map (fun md => (c.1, md)))

/-- Denotation of transcribe_audio_chunks; see the comment on chunkRun. -/
def transcribe_audio_chunksT (oracle : TransOracle) (s : TransSettings)
    (max_concurrent : Nat) (chunks : List (String × Nat)) (model : Option String) :
    Except String (String × String × List Segment) × List (String × String) :=
  if chunks.isEmpty then (.error "No audio chunks provided", [])
  else
    let m := model.getD s.transcription_model
    let runs := chunks.map (chunkRun oracle s m)
    let trace := (runs.map Prod.snd).flatten
    let res : Except String (String × String × List Segment) :=
      match collectExcept (runs.map Prod.fst) with
      | .error e => .error ("Chunked transcription failed: " ++ e)
      | .ok rs =>
        let indexed := (List.range chunks.length).zip
          (rs.map (fun r => (r.1, r.2.2)))
        let merged := mergeFromResults indexed
        .ok (merged.1, m, merged.2)
    (res, trace)

/-- The result component of transcribe_audio_chunks. -/
def transcribe_audio_chunks (oracle : TransOracle) (s : TransSettings)
    (max_concurrent : Nat) (chunks : List (String × Nat)) (model : Option String) :
    Except String (String × String × List Segment) :=
  (transcribe_audio_chunksT oracle s max_concurrent chunks model).1

/-! ## The semaphore-gated scheduler of transcribe_audio_chunks

The timing behaviour of the per-chunk tasks is an interleaving of steps: a
task may start its transcription call only after acquiring the
asyncio.Semaphore max_concurrent created at line 123 (the async with at
line 129), and releases it when its call finishes. The transition system
below is the standard small-step model of that discipline: starting a task
requires a free semaphore slot and consumes it, finishing a task returns
the slot. -/

/-- Phase of one chunk-transcription task: not yet started, holding a
semaphore slot while its call is outstanding, or finished. -/
inductive TaskPhase
  | pending
  | running
  | done
  deriving DecidableEq, Repr

/-- Scheduler state: the phase of each task and the free slot count of the
semaphore. -/
structure SchedState where
  tasks : List TaskPhase
  sem : Nat
  deriving DecidableEq, Repr

/-- Initial scheduler state for n chunk tasks and capacity k: every task
pending, all k slots free. -/
def schedInit (n k : Nat) : SchedState :=
  ⟨List.replicate n TaskPhase.pending, k⟩

/-- Number of transcription calls outstanding simultaneously. -/
def runningCount (s : SchedState) : Nat :=
  s.tasks.count TaskPhase.running

/-- One scheduler step: a pending task acquires the semaphore and starts
its call (possible only when a slot is free), or a running task finishes
its call and releases the semaphore. -/
inductive SchedStep : SchedState → SchedState → Prop
  | start (s : SchedState) (i : Nat)
      (hi : s.tasks[i]? = some TaskPhase.pending) (hs : 0 < s.sem) :
      SchedStep s ⟨s.tasks.set i TaskPhase.running, s.sem - 1⟩
  | finish (s : SchedState) (i : Nat)
      (hi : s.tasks[i]? = some TaskPhase.running) :
      SchedStep s ⟨s.tasks.set i TaskPhase.done, s.sem + 1⟩

/-- States reachable by the scheduler that runs n chunk tasks under a
semaphore of capacity k. -/
def SchedReach (n k : Nat) (s : SchedState) : Prop :=
  Relation.ReflTransGen SchedStep (schedInit n k) s

/-! ## video_service.py: the per-job orchestrator process_video -/

/-- The VideoStatus enum of models.py (lines 10-23). The worker at
worker.py line 112 additionally assigns VideoStatus.processing, a member
the enum does not define; the constructor is included here so that the
worker can be embedded as written, with the divergence recorded at the
assignment site. -/
inductive VideoStatus
  | uploading
  | uploaded
  | processing
  | downloading
  | extracting_audio
  | transcribing
  | generating_notes
  | completed
  | failed
  deriving DecidableEq, Repr

/-- The GeneratedNote pydantic model of schemas.py (lines 176-189),
restricted to the fields the orchestrator control flow reads. Note that
the model defines no title field, although video_service.py line 207
reads notes_object.title; pydantic raises AttributeError there. -/
structure GeneratedNote where
  summary : String
  tags : List String
  deriving DecidableEq, Repr

/-- A Transcription row as created by the orchestrator (models.py lines
105-128), restricted to the columns the pipeline writes. Timestamps and
intervals are wall-clock values; only the presence of processing_time is
modelled. -/
structure TranscriptionRec where
  transcript_text : Option String
  model_used : Option String
  has_processing_time : Bool
  audio_size : Option Nat
  transcript_segments : Option (List Segment)
  notes : Option GeneratedNote
  error_message : Option String
  deriving DecidableEq, Repr

/-- Collaborator calls process_video can make, for stating claims about
which collaborators run. -/
inductive PVCall
  | download
  | probe
  | extract
  | splitChunks
  | transcribeChunked
  | transcribeDirect
  | generateNotes
  deriving DecidableEq, Repr

/-- Environment of one process_video run: the persisted inputs it reads
and the outcome of each effectful collaborator call. -/
structure PVEnv where
  /-- Whether the Video row exists; modelled as constant through the run
  (the source re-queries it in every session). -/
  videoFound : Bool
  /-- video.r2_key; none models a falsy key (local-file compatibility). -/
  r2_key : Option String
  /-- video.file_path, used when r2_key is falsy. -/
  file_path : String
  /-- Outcome of r2_service.download_video: temp path or R2Error text. -/
  downloadResult : Except String String
  /-- Outcome of get_video_duration in seconds. Failure is non-fatal. -/
  durationResult : Except String ℚ
  /-- Outcome of extract_audio: audio path and byte size, or error. -/
  extractResult : Except String (String × Nat)
  /-- Sizes of the chunk files ffmpeg produces during splitting. -/
  chunkSizes : Nat → Nat
  /-- The transcription API collaborator. -/
  oracle : TransOracle
  /-- The transcription model settings. -/
  settings : TransSettings
  /-- Outcome of generate_notes; the error case is a NoteGenerationError
  (note_generation_service.py wraps every failure in that type). -/
  notesResult : Except String GeneratedNote

/-- Result of one process_video run: the status values persisted in
order, the duration persisted (if any), the Transcription rows added, the
video title update (if any) and the collaborator calls made. -/
structure PVResult where
  statusWrites : List VideoStatus
  duration_seconds : Option ℤ
  transcriptions : List TranscriptionRec
  titleSet : Option String
  calls : List PVCall
  deriving Repr

/-- The transcription step of process_video (lines 149-171): split then
chunked transcription when the audio size exceeds the threshold, a direct
transcribe_audio call otherwise. -/
def pvTranscribeResult (env : PVEnv) (max_concurrent chunk_threshold_mb : Nat)
    (audio_path : String) (audio_size : Nat) :
    Except String (String × String × List Segment) :=
  if mb_bytes chunk_threshold_mb < audio_size then
    transcribe_audio_chunks env.oracle env.settings max_concurrent
      (split_audio_into_chunks audio_path audio_size chunk_threshold_mb env.chunkSizes)
      none
  else
    (transcribe_audioT env.oracle env.settings audio_path none).1

/-- The collaborator calls of the transcription step, matching
pvTranscribeResult. -/
def pvTranscribeCalls (chunk_threshold_mb : Nat) (audio_size : Nat) : List PVCall :=
  if mb_bytes chunk_threshold_mb < audio_size then
    [PVCall.splitChunks, PVCall.transcribeChunked]
  else
    [PVCall.transcribeDirect]

/-- The fatal-error handler of process_video (lines 253-268), reached on
AudioExtractionError and TranscriptionError: one Transcription row with
only the error message and the processing time, and a failed status
write. -/
def pvFatal (writes : List VideoStatus) (dur : Option ℤ) (msg : String)
    (calls : List PVCall) : PVResult :=
  { statusWrites := writes ++ [VideoStatus.failed]
  , duration_seconds := dur
  , transcriptions := [⟨none, none, true, none, none, none, some msg⟩]
  , titleSet := none
  , calls := calls }

/-- The generic exception handler of process_video (lines 270-279): only
a failed status write, no Transcription row. -/
def pvUnexpected (writes : List VideoStatus) (dur : Option ℤ)
    (calls : List PVCall) : PVResult :=
  { statusWrites := writes ++ [VideoStatus.failed]
  , duration_seconds := dur
  , transcriptions := []
  , titleSet := none
  , calls := calls }

/-- process_video from the duration probe on (sessions 3-6, lines
118-251), after the video path has been determined; writes and calls
collect what happened before this point. -/
def process_videoBody (env : PVEnv) (max_concurrent chunk_threshold_mb : Nat)
    (writes : List VideoStatus) (calls : List PVCall) (video_path : String) :
    PVResult :=
  -- Session 3: status extracting_audio plus the best-effort duration probe
  -- (failure logged and ignored, lines 126-132).
  let writes := writes ++ [VideoStatus.extracting_audio]
  let calls := calls ++ [PVCall.probe]
  let dur : Option ℤ := match env.durationResult with
    | .ok d => some ⌊d⌋
    | .error _ => none
  -- Audio extraction (line 138); AudioExtractionError is fatal.
  match env.extractResult with
  | .error e => pvFatal writes dur e (calls ++ [PVCall.extract])
  | .ok (audio_path, audio_size) =>
    let calls := calls ++ [PVCall.extract]
    -- Session 4: status transcribing (lines 142-147).
    let writes := writes ++ [VideoStatus.transcribing]
    let calls := calls ++ pvTranscribeCalls chunk_threshold_mb audio_size
    match pvTranscribeResult env max_concurrent chunk_threshold_mb audio_path audio_size with
    | .error e => pvFatal writes dur e calls
    | .ok (transcript_text, model_used, transcript_segments) =>
      -- Session 5: status generating_notes (lines 176-181).
      let writes := writes ++ [VideoStatus.generating_notes]
      let calls := calls ++ [PVCall.generateNotes]
      match env.notesResult with
      | .error _ =>
        -- NoteGenerationError is caught at lines 210-212: the job still
        -- completes, with a null notes payload. Session 6 (lines
        -- 217-249) adds the Transcription row and sets completed.
        { statusWrites := writes ++ [VideoStatus.completed]
        , duration_seconds := dur
        , transcriptions := [⟨some transcript_text, some model_used, true,
            some audio_size, some transcript_segments, none, none⟩]
        , titleSet := none
        , calls := calls }
      | .ok _notes =>
        -- Line 207 reads notes_object.title, a field GeneratedNote does
        -- not define: pydantic raises AttributeError, which is not a
        -- NoteGenerationError and therefore escapes to the generic
        -- handler at lines 270-279 before session 6 runs. The computed
        -- notes payload is lost and no Transcription row is persisted.
        pvUnexpected writes dur calls

/-- process_video (video_service.py lines 64-289). Collaborator outcomes
come from the environment; the result records every persisted status
value, the rows added and the calls made. -/
def process_video (env : PVEnv) (max_concurrent chunk_threshold_mb : Nat) :
    PVResult :=
  -- Session 1 (lines 85-94): if the video row is missing, return having
  -- done nothing.
  if ¬ env.videoFound then ⟨[], none, [], none, []⟩
  else
    match env.r2_key with
    | some _ =>
      -- Session 2 (lines 100-105): status downloading, then the R2
      -- download; an R2Error is wrapped in AudioExtractionError (line
      -- 113) and is fatal.
      match env.downloadResult with
      | .error e =>
        pvFatal [VideoStatus.downloading] none
          ("Failed to download video from R2: " ++ e) [PVCall.download]
      | .ok temp_path =>
        process_videoBody env max_concurrent chunk_threshold_mb
          [VideoStatus.downloading] [PVCall.download] temp_path
    | none =>
      -- Local file path, backward compatibility (lines 114-116).
      process_videoBody env max_concurrent chunk_threshold_mb [] [] env.file_path

/-! ## worker.py: the Cloud Tasks entry point process_video_task -/

/-- Collaborator calls the worker can make. -/
inductive WCall
  | download
  | compress
  | upload
  | deleteOriginal
  | runPipeline
  deriving DecidableEq, Repr

/-- Environment of one process_video_task invocation: the task payload
fields it uses, the persisted state it reads and the outcome of each
effectful collaborator call. pv is the environment of the inner
process_video run. -/
structure WorkerEnv where
  /-- The r2_key of the task payload. -/
  r2_key : String
  /-- Whether the Video row exists (worker lines 89-95). -/
  videoFound : Bool
  /-- Whether a Transcription row already exists for the video: the
  idempotency check of worker lines 97-109. -/
  hasExistingTranscription : Bool
  /-- Outcome of download_video in the worker (line 118). -/
  downloadResult : Except String String
  /-- Size of the downloaded file (line 119). -/
  originalSize : Nat
  /-- settings.enable_video_compression. -/
  enable_video_compression : Bool
  /-- settings.compression_skip_threshold_mb. -/
  compression_skip_threshold_mb : Nat
  /-- Outcome of compress_video: compressed path and size, or a
  VideoCompressionError (non-fatal, lines 163-165). -/
  compressionResult : Except String (String × Nat)
  /-- Outcome of upload_local_file: final R2 key and size (line 169). -/
  uploadResult : Except String (String × Nat)
  /-- Whether delete_video on the original key succeeds; an R2Error there
  is logged and ignored (lines 185-190). -/
  deleteOk : Bool
  /-- settings.max_concurrent_transcriptions. -/
  max_concurrent_transcriptions : Nat
  /-- settings.chunk_threshold_mb. -/
  chunk_threshold_mb : Nat
  /-- Environment of the inner process_video run (line 195). -/
  pv : PVEnv

/-- Result of one process_video_task invocation: the HTTP-level response
(error means an HTTPException was raised), the status values the worker
itself persisted, the Transcription rows the worker itself added, the
worker collaborator calls made, and the result of the inner process_video
run when it was reached. -/
structure WorkerResult where
  response : Except String String
  statusWrites : List VideoStatus
  transcriptions : List TranscriptionRec
  calls : List WCall
  pipeline : Option PVResult

/-- The exception handler of process_video_task (lines 209-244): set the
video status to failed, record the error on the Transcription row
(creating one only when none exists yet), and re-raise as HTTP 500. -/
def workerFailure (env : WorkerEnv) (writes : List VideoStatus)
    (calls : List WCall) (msg : String) : WorkerResult :=
  { response := .error msg
  , statusWrites := writes ++ [VideoStatus.failed]
  , transcriptions :=
      if env.hasExistingTranscription then []
      else [⟨none, none, false, none, none, none,
        some ("Worker processing failed: " ++ msg)⟩]
  , calls := calls
  , pipeline := none }

/-- process_video_task (worker.py lines 57-251). The upload path and size
variables follow the source: the compressed artifact replaces the
original only when compression is enabled, not skipped for size, and
succeeds. Note on line 112: the source assigns VideoStatus.processing,
which is not a member of the enum in models.py, so at runtime that
attribute access raises AttributeError into the generic handler; the
embedding keeps the assignment as written, since no claim depends on the
post-check path, and records the divergence here. -/
def process_video_task (env : WorkerEnv) : WorkerResult :=
  -- Video lookup (lines 89-95): a missing row raises HTTPException(404),
  -- which the except clause at line 209 converts into a 500 with the
  -- same detail after finding no video to update.
  if ¬ env.videoFound then
    workerFailure env [] [] ("Video not found")
  else if env.hasExistingTranscription then
    -- Idempotency check (lines 97-109): short-circuit before any state
    -- mutation or collaborator call.
    { response := .ok "already_processed"
    , statusWrites := []
    , transcriptions := []
    , calls := []
    , pipeline := none }
  else
    -- Line 112: status processing (see the divergence note above).
    let writes := [VideoStatus.processing]
    match env.downloadResult with
    | .error e => workerFailure env writes [WCall.download] e
    | .ok _local_path =>
      let calls := [WCall.download]
      let original_size := env.originalSize
      let skip_compression :=
        mb_bytes env.compression_skip_threshold_mb < original_size
      let compressed :=
        if env.enable_video_compression ∧ ¬ skip_compression then
          -- Compression failure falls back to the original (lines
          -- 163-165).
          match env.compressionResult with
          | .ok c => some c
          | .error _ => none
        else none
      let calls := calls ++
        (if env.enable_video_compression ∧ ¬ skip_compression
          then [WCall.compress] else [])
      match env.uploadResult with
      | .error e => workerFailure env writes (calls ++ [WCall.upload]) e
      | .ok (final_r2_key, _file_size) =>
        let calls := calls ++ [WCall.upload]
        -- Lines 177-182: record the new key and set status uploaded.
        let writes := writes ++ [VideoStatus.uploaded]
        let calls := calls ++
          (if env.r2_key ≠ final_r2_key then [WCall.deleteOriginal] else [])
        -- Line 195: run the transcription pipeline. process_video
        -- catches all its own errors, so the worker then returns
        -- success.
        let pvres := process_video env.pv env.max_concurrent_transcriptions
          env.chunk_threshold_mb
        { response := .ok "success"
        , statusWrites := writes
        , transcriptions := []
        , calls := calls ++ [WCall.runPipeline]
        , pipeline := some pvres }

/-! ## Statement support definitions -/

/-- The indexed per-chunk results in chunk index order, as the tasks of
transcribe_audio_chunks produce them: task i returns
(i, transcript of chunk i, segments of chunk i). -/
def canonicalResults (n : Nat) (outs : Nat → String × List Segment) :
    List (Nat × String × List Segment) :=
  (List.range n).map (fun i => (i, (outs i).1, (outs i).2))

/-- The segment invariant of one per-chunk transcription result: starts
non-negative, every end strictly after its start, and starts internally
non-decreasing. -/
def SegListInv (segs : List Segment) : Prop :=
  (∀ g ∈ segs, 0 ≤ g.start ∧ g.start < g.stop)
  ∧ segs.Pairwise (fun a b => a.start ≤ b.start)

/-- A segment sequence is non-decreasing in start time. -/
def startsMono (segs : List Segment) : Prop :=
  segs.Pairwise (fun a b => a.start ≤ b.start)

/-- Strict chunk-index order on indexed results. -/
def resStrict (a b : Nat × String × List Segment) : Prop := a.1 < b.1

instance : IsAntisymm (Nat × String × List Segment) resStrict :=
  ⟨fun _ _ h1 h2 => absurd h2 (Nat.lt_asymm h1)⟩

/-! ## Example environments used by the witnesses -/

/-- The default model configuration of config.py lines 16-17. -/
def settingsEx : TransSettings :=
  ⟨"whisper-1", "gpt-4o-mini-transcribe"⟩

/-- A transcription collaborator that always succeeds. -/
def oracleEx : TransOracle :=
  fun _ _ => .ok ("hello world", [⟨0, 1, "hello world"⟩])

/-- A transcription collaborator for which only the fallback model
succeeds. -/
def oracleFb : TransOracle :=
  fun _ m =>
    if m = "gpt-4o-mini-transcribe" then .ok ("fb text", [])
    else .error "primary down"

/-- An orchestrator environment in which every fatal collaborator
succeeds and note generation fails with a NoteGenerationError. -/
def pvEnvEx : PVEnv :=
  { videoFound := true
  , r2_key := some "videos/u1/v1.mp4"
  , file_path := "videos/u1/v1.mp4"
  , downloadResult := .ok "/tmp/v1.mp4"
  , durationResult := .ok 60
  , extractResult := .ok ("/tmp/v1_audio.mp3", 1000)
  , chunkSizes := fun _ => 0
  , oracle := oracleEx
  , settings := settingsEx
  , notesResult := .error "boom" }

/-- pvEnvEx with a failing audio extraction. -/
def pvEnvFailExtract : PVEnv :=
  { pvEnvEx with extractResult := .error "ffmpeg error: boom" }

/-- pvEnvEx with a transcription API that always fails. -/
def pvEnvFailTrans : PVEnv :=
  { pvEnvEx with oracle := fun _ _ => .error "api down" }

/-- A worker environment whose video already has a Transcription row. -/
def wEnvEx : WorkerEnv :=
  { r2_key := "videos/u1/v1.mp4"
  , videoFound := true
  , hasExistingTranscription := true
  , downloadResult := .ok "/tmp/v1.mp4"
  , originalSize := 1000000
  , enable_video_compression := false
  , compression_skip_threshold_mb := 500
  , compressionResult := .error "not attempted"
  , uploadResult := .ok ("videos/u1/v1_proc.mp4", 900000)
  , deleteOk := true
  , max_concurrent_transcriptions := 4
  , chunk_threshold_mb := 4
  , pv := pvEnvEx }

/-! ## C10: empty chunk list -/

/-- C10: calling transcribe_audio_chunks with an empty chunk list raises
a TranscriptionError with message No audio chunks provided (it never
returns a merged result), and the check happens before any transcription
call is made: the attempt trace is empty. -/
theorem transcribe_chunks_empty_raises (oracle : TransOracle)
    (s : TransSettings) (mc : Nat) (model : Option String) :
    transcribe_audio_chunksT oracle s mc [] model
      = (.error "No audio chunks provided", []) := rfl

/-! ## C1: idempotency guard of the worker -/

/-- C1: when the job already has a persisted Transcription row, invoking
the worker entry point again short-circuits with the already_processed
success result, persists no status value, adds no row and calls no
collaborator (in particular neither the transcription pipeline nor the
note generator runs): the idempotency check precedes every state
mutation. -/
theorem worker_idempotent_short_circuit (env : WorkerEnv)
    (hfound : env.videoFound = true)
    (hex : env.hasExistingTranscription = true) :
    process_video_task env =
      { response := .ok "already_processed"
      , statusWrites := []
      , transcriptions := []
      , calls := []
      , pipeline := none } := by
  simp [process_video_task, hfound, hex]

/-- Closed instance of the idempotency theorem at the concrete
environment wEnvEx. -/
theorem worker_idempotent_short_circuit_witness :
    process_video_task wEnvEx =
      { response := .ok "already_processed"
      , statusWrites := []
      , transcriptions := []
      , calls := []
      , pipeline := none } :=
  worker_idempotent_short_circuit wEnvEx rfl rfl

/-! ## C2: chunk count of split_audio_into_chunks -/

/-- C2 counterexample: for an audio artifact of exactly 8 MiB and a 4 MiB
threshold the size strictly exceeds the threshold, yet split produces
3 chunk descriptors while ceil(size / threshold) = 2: the source computes
int(size / threshold) + 1, not the ceiling. -/
theorem split_count_not_ceil_at_exact_multiple :
    mb_bytes 4 < 8388608
    ∧ (split_audio_into_chunks "a.mp3" 8388608 4 (fun _ => 4194304)).length = 3
    ∧ ceil_div 8388608 (mb_bytes 4) = 2 := by
  refine ⟨by norm_num [mb_bytes], ?_, by norm_num [ceil_div, mb_bytes]⟩
  rfl

/-- C2 amended: for every audio artifact whose size strictly exceeds the
positive chunk threshold, split returns exactly
size / threshold + 1 chunk descriptors (floor division), the descriptor
at position i being chunk i for i = 0 .. n-1 (indices unique and
contiguous); this count equals ceil(size / threshold) whenever the
threshold does not divide the size exactly. -/
theorem split_chunk_count (p : String) (size mb : Nat) (sz : Nat → Nat)
    (hmb : 0 < mb) (h : mb_bytes mb < size) :
    (split_audio_into_chunks p size mb sz).length = size / mb_bytes mb + 1
    ∧ split_audio_into_chunks p size mb sz
        = (List.range (size / mb_bytes mb + 1)).map
            (fun i => (chunk_path p i, sz i))
    ∧ (¬ mb_bytes mb ∣ size →
        (split_audio_into_chunks p size mb sz).length
          = ceil_div size (mb_bytes mb)) := by
  have hnle : ¬ size ≤ mb_bytes mb := Nat.not_le.mpr h
  have hthr : 0 < mb_bytes mb := by
    have h1 : 0 < (1024 : ℕ) := by norm_num
    simpa [mb_bytes, Nat.mul_assoc] using Nat.mul_pos hmb (Nat.mul_pos h1 h1)
  refine ⟨?_, ?_, ?_⟩
  · simp [split_audio_into_chunks, hnle]
  · simp [split_audio_into_chunks, hnle]
  · intro hnd
    have hmod : size % mb_bytes mb ≠ 0 :=
      fun h0 => hnd (Nat.dvd_of_mod_eq_zero h0)
    have hsplit : (split_audio_into_chunks p size mb sz).length
        = size / mb_bytes mb + 1 := by simp [split_audio_into_chunks, hnle]
    rw [hsplit]
    set t := mb_bytes mb with ht
    have hdm := Nat.div_add_mod size t
    set q := size / t
    set r := size % t with hr
    have hrlt : r < t := Nat.mod_lt _ hthr
    have hrpos : 1 ≤ r := Nat.one_le_iff_ne_zero.mpr hmod
    have hrw : size + t - 1 = t * q + (r + t - 1) := by omega
    have hdiv : (r + t - 1) / t = 1 :=
      Nat.div_eq_of_lt_le (by omega) (by omega)
    rw [ceil_div, hrw, Nat.mul_add_div hthr, hdiv]

/-- Closed instance of the amended chunk-count theorem at the example of
the specification: a 10 MiB artifact with a 4 MiB threshold yields
3 = ceil(10/4) chunks. -/
theorem split_chunk_count_witness :
    0 < 4 ∧ mb_bytes 4 < 10485760
    ∧ ¬ mb_bytes 4 ∣ 10485760
    ∧ (split_audio_into_chunks "audio.mp3" 10485760 4 (fun _ => 0)).length
        = ceil_div 10485760 (mb_bytes 4) :=
  ⟨by decide, by decide, by decide,
   (split_chunk_count "audio.mp3" 10485760 4 (fun _ => 0)
      (by decide) (by decide)).2.2 (by decide)⟩

/-! ## C3: cumulative time offset recombination -/

/-- C3: the recombination loop of transcribe_audio_chunks starts from a
running offset of 0, shifts every segment of a chunk by the running
offset before appending it, and after a chunk with segments advances the
offset to the end of the last appended segment of that chunk (the end of
its last local segment plus the old offset), not to a nominal chunk
duration; a chunk without segments leaves the offset unchanged. In
particular, for three chunks of nominal duration 10 s each, where chunk 1
transcribes up to 10 s and the last transcribed segment of chunk 2 ends
at 9.4 s local time, the segments of chunk 3 are offset by
19.4 = 10 + 9.4 seconds, not by 20. -/
theorem combine_cumulative_offset :
    offsetAfter ([] : List (List Segment)) = 0
    ∧ (∀ (rs : List (List Segment)) (segs : List Segment),
        combineSegments (rs ++ [segs])
          = combineSegments rs
            ++ segs.map (fun g => Segment.shift g (offsetAfter rs)))
    ∧ (∀ (rs : List (List Segment)) (segs : List Segment) (g : Segment),
        segs.getLast? = some g →
        offsetAfter (rs ++ [segs]) = g.stop + offsetAfter rs)
    ∧ (∀ (rs : List (List Segment)) (segs : List Segment),
        segs = [] → offsetAfter (rs ++ [segs]) = offsetAfter rs)
    ∧ offsetAfter [[⟨0, 10, "c1"⟩], [⟨0, 47/5, "c2"⟩]] = 97/5
    ∧ combineSegments [[⟨0, 10, "c1"⟩], [⟨0, 47/5, "c2"⟩], [⟨1, 2, "c3"⟩]]
        = [⟨0, 10, "c1"⟩, ⟨10, 97/5, "c2"⟩,
           ⟨1 + 97/5, 2 + 97/5, "c3"⟩] := by
  refine ⟨rfl, ?_, ?_, ?_,
    by norm_num [offsetAfter, combineChunk, Segment.shift],
    by norm_num [combineSegments, combineChunk, Segment.shift]⟩
  · intro rs segs
    rw [combineSegments, combineSegments, offsetAfter, List.foldl_concat]
    rcases hl : (segs.map
        (fun g => Segment.shift g ((rs.foldl combineChunk ([], 0)).2))).getLast? with
      _ | g
    · simp [combineChunk, hl]
    · simp [combineChunk, hl]
  · intro rs segs g hg
    rw [offsetAfter, offsetAfter, List.foldl_concat]
    simp [combineChunk, hg, Segment.shift]
  · intro rs segs hsegs
    subst hsegs
    rw [offsetAfter, offsetAfter, List.foldl_concat]
    simp [combineChunk]

/-- Closed instance of the offset-advance rule at the concrete example of
the specification: after chunks 1 and 2 the running offset is 19.4, so
the third chunk is shifted by 19.4 and ends at 21.4. -/
theorem combine_cumulative_offset_witness :
    offsetAfter ([[⟨0, 10, "c1"⟩], [⟨0, 47/5, "c2"⟩]] ++ [[⟨1, 2, "c3"⟩]])
      = (2 : ℚ) + 97/5 :=
  (combine_cumulative_offset.2.2.1
      [[⟨0, 10, "c1"⟩], [⟨0, 47/5, "c2"⟩]] [⟨1, 2, "c3"⟩] ⟨1, 2, "c3"⟩
      rfl).trans
    (by norm_num [offsetAfter, combineChunk, Segment.shift])

/-! ## C4: completion order independence and merged monotonicity -/

/-- Sorting by chunk index recovers any strictly index-sorted list from
any permutation of it: the sort of results.sort at line 163 makes the
merge independent of the completion order. -/
theorem sortKey_perm_strict_eq (l c : List (Nat × String × List Segment))
    (hperm : l.Perm c) (hc : c.Pairwise resStrict) :
    List.insertionSort resKey l = c := by
  have hperm' : (List.insertionSort resKey l).Perm c :=
    (List.perm_insertionSort resKey l).trans hperm
  have hsorted : List.Sorted resKey (List.insertionSort resKey l) :=
    List.sorted_insertionSort resKey l
  have hndc : (c.map Prod.fst).Nodup := by
    have hfst : (c.map Prod.fst).Pairwise (fun a b => a < b) :=
      List.pairwise_map.mpr hc
    exact hfst.imp Nat.ne_of_lt
  have hnds : ((List.insertionSort resKey l).map Prod.fst).Nodup :=
    ((hperm'.map Prod.fst).nodup_iff).mpr hndc
  have hne : (List.insertionSort resKey l).Pairwise (fun a b => a.1 ≠ b.1) :=
    List.pairwise_map.mp hnds
  have hstrict : List.Sorted resStrict (List.insertionSort resKey l) :=
    (List.Pairwise.and hsorted hne).imp
      (fun h => lt_of_le_of_ne h.1 h.2)
  exact List.eq_of_perm_of_sorted hperm' hstrict hc

/-- The canonical indexed results are strictly sorted by chunk index. -/
theorem canonical_sorted (n : Nat) (outs : Nat → String × List Segment) :
    (canonicalResults n outs).Pairwise resStrict :=
  List.pairwise_map.mpr (List.pairwise_lt_range n)

/-- In a start-sorted segment list, every start is at most the start of
the last element. -/
theorem pairwise_le_getLast {l : List Segment} {g : Segment}
    (hg : l.getLast? = some g)
    (hp : l.Pairwise (fun a b => a.start ≤ b.start)) :
    ∀ a ∈ l, a.start ≤ g.start := by
  induction l with
  | nil => simp at hg
  | cons x t ih =>
    cases t with
    | nil =>
      simp only [List.getLast?_singleton, Option.some.injEq] at hg
      subst hg
      intro a ha
      simp only [List.mem_singleton] at ha
      subst ha
      exact le_refl _
    | cons y u =>
      rw [List.getLast?_cons_cons] at hg
      intro a ha
      rcases List.mem_cons.mp ha with rfl | hmem
      · exact (List.pairwise_cons.mp hp).1 g (List.mem_of_mem_getLast? hg)
      · exact ih hg (List.pairwise_cons.mp hp).2 a hmem

/-- Invariant of the recombination fold: starting from a start-sorted
accumulator whose starts are bounded by a non-negative running offset,
folding chunks that satisfy the segment invariant keeps the merged list
start-sorted, keeps every start bounded by the offset, and keeps the
offset non-negative. -/
theorem combineChunk_fold_inv (rs : List (List Segment))
    (acc : List Segment × ℚ)
    (hmono : acc.1.Pairwise (fun a b => a.start ≤ b.start))
    (hbound : ∀ g ∈ acc.1, g.start ≤ acc.2)
    (hoff : 0 ≤ acc.2)
    (h : ∀ segs ∈ rs, SegListInv segs) :
    (rs.foldl combineChunk acc).1.Pairwise (fun a b => a.start ≤ b.start)
    ∧ (∀ g ∈ (rs.foldl combineChunk acc).1,
        g.start ≤ (rs.foldl combineChunk acc).2)
    ∧ 0 ≤ (rs.foldl combineChunk acc).2 := by
  induction rs generalizing acc with
  | nil => exact ⟨hmono, hbound, hoff⟩
  | cons segs rest ih =>
    simp only [List.foldl_cons]
    have hsi : SegListInv segs := h segs (List.mem_cons_self _ _)
    have hrest : ∀ s ∈ rest, SegListInv s :=
      fun s hs => h s (List.mem_cons_of_mem _ hs)
    rcases hl : (segs.map (fun g => Segment.shift g acc.2)).getLast? with _ | g'
    · -- the chunk has no segments: list and offset are unchanged
      have hnil : segs = [] := by
        rcases List.getLast?_eq_none_iff.mp hl with h0
        exact List.map_eq_nil_iff.mp h0
      subst hnil
      have hck : combineChunk acc [] = (acc.1, acc.2) := by
        simp [combineChunk]
      rw [hck]
      exact ih (acc.1, acc.2) hmono hbound hoff hrest
    · -- the chunk has segments; g' is the last shifted segment
      rw [List.getLast?_map] at hl
      rcases hoptm : segs.getLast? with _ | glast
      · rw [hoptm] at hl; simp at hl
      rw [hoptm] at hl
      simp only [Option.map_some', Option.some.injEq] at hl
      have hglmem : glast ∈ segs := List.mem_of_mem_getLast? hoptm
      have hgl : 0 ≤ glast.start ∧ glast.start < glast.stop := hsi.1 glast hglmem
      have hck : combineChunk acc segs
          = (acc.1 ++ segs.map (fun g => Segment.shift g acc.2), g'.stop) := by
        rw [combineChunk]
        simp only [List.getLast?_map, hoptm, Option.map_some', hl]
      rw [hck]
      have hstop : g'.stop = glast.stop + acc.2 := by rw [← hl]; rfl
      have hmono' : (acc.1 ++ segs.map (fun g => Segment.shift g acc.2)).Pairwise
          (fun a b => a.start ≤ b.start) := by
        rw [List.pairwise_append]
        refine ⟨hmono, ?_, ?_⟩
        · exact List.pairwise_map.mpr
            (hsi.2.imp (fun hab => by
              simp only [Segment.shift]
              exact add_le_add_right hab acc.2))
        · intro a ha b hb
          rcases List.mem_map.mp hb with ⟨g0, hg0, rfl⟩
          have h0 : 0 ≤ g0.start := (hsi.1 g0 hg0).1
          calc a.start ≤ acc.2 := hbound a ha
            _ ≤ g0.start + acc.2 := le_add_of_nonneg_left h0
            _ = (Segment.shift g0 acc.2).start := rfl
      have hbound' : ∀ g ∈ acc.1 ++ segs.map (fun g => Segment.shift g acc.2),
          g.start ≤ g'.stop := by
        intro g hg
        rw [hstop]
        rcases List.mem_append.mp hg with hga | hgm
        · calc g.start ≤ acc.2 := hbound g hga
            _ ≤ glast.stop + acc.2 :=
              le_add_of_nonneg_left (le_of_lt (lt_of_le_of_lt hgl.1 hgl.2))
        · rcases List.mem_map.mp hgm with ⟨g0, hg0, rfl⟩
          have h1 : g0.start ≤ glast.start := pairwise_le_getLast hoptm hsi.2 g0 hg0
          have h2 : (Segment.shift g0 acc.2).start = g0.start + acc.2 := rfl
          rw [h2]
          exact add_le_add_right (le_of_lt (lt_of_le_of_lt h1 hgl.2)) acc.2
      have hoff' : 0 ≤ g'.stop := by
        rw [hstop]
        exact add_nonneg (le_of_lt (lt_of_le_of_lt hgl.1 hgl.2)) hoff
      exact ih _ hmono' hbound' hoff' hrest

/-- The recombined segment sequence of chunks satisfying the segment
invariant is non-decreasing in start time (across chunk boundaries in
particular). -/
theorem combineSegments_mono (rs : List (List Segment))
    (h : ∀ segs ∈ rs, SegListInv segs) : startsMono (combineSegments rs) :=
  (combineChunk_fold_inv rs ([], 0) (by simp) (by simp) (le_refl 0) h).1

/-- C4: for every non-empty chunk count n whose per-chunk results satisfy
the segment invariant, and for every permutation l of the indexed results
(modelling any completion order of the concurrent per-chunk calls), the
merge produces the same result as the canonical chunk-index order, and
the merged segment sequence is non-decreasing in start time. -/
theorem transcribeAll_completion_order_independent
    (n : Nat) (outs : Nat → String × List Segment) (hn : 0 < n)
    (hinv : ∀ i < n, SegListInv (outs i).2)
    (l : List (Nat × String × List Segment))
    (hperm : l.Perm (canonicalResults n outs)) :
    mergeFromResults l = mergeFromResults (canonicalResults n outs)
    ∧ startsMono (mergeFromResults l).2 := by
  have hc : (canonicalResults n outs).Pairwise resStrict :=
    canonical_sorted n outs
  have h1 : List.insertionSort resKey l = canonicalResults n outs :=
    sortKey_perm_strict_eq l _ hperm hc
  have h2 : List.insertionSort resKey (canonicalResults n outs)
      = canonicalResults n outs :=
    sortKey_perm_strict_eq _ _ (List.Perm.refl _) hc
  have heq : mergeFromResults l = mergeFromResults (canonicalResults n outs) := by
    rw [mergeFromResults, mergeFromResults, h1, h2]
  refine ⟨heq, ?_⟩
  rw [heq, mergeFromResults, h2]
  apply combineSegments_mono
  intro segs hs
  rw [canonicalResults, List.map_map] at hs
  rcases List.mem_map.mp hs with ⟨i, hi, rfl⟩
  exact hinv i (List.mem_range.mp hi)

/-- Closed instance of the order-independence theorem: two chunks whose
results arrive in reversed completion order merge to the canonical
result, which is start-monotone. -/
theorem transcribeAll_completion_order_independent_witness :
    mergeFromResults [(1, "t", ([] : List Segment)), (0, "t", [])]
      = mergeFromResults (canonicalResults 2 (fun _ => ("t", [])))
    ∧ startsMono
        (mergeFromResults [(1, "t", ([] : List Segment)), (0, "t", [])]).2 :=
  transcribeAll_completion_order_independent 2 (fun _ => ("t", []))
    (by decide)
    (fun _ _ => ⟨by simp, List.Pairwise.nil⟩)
    [(1, "t", []), (0, "t", [])]
    (List.Perm.swap (0, "t", []) (1, "t", []) [])

/-! ## C5: note-generation failure is non-fatal -/

/-- C5: when every fatal step succeeds but note generation fails with a
NoteGenerationError, the run still persists exactly one Transcription row
whose transcript text is non-null and whose notes field is null, and the
job ends in stage completed (the failure is absorbed, not re-raised): the
full stage sequence is the successful one. -/
theorem notes_failure_nonfatal (env : PVEnv) (mc th : Nat)
    (k p ap t m e : String) (asz : Nat) (segs : List Segment)
    (hfound : env.videoFound = true)
    (hkey : env.r2_key = some k)
    (hdl : env.downloadResult = .ok p)
    (hex : env.extractResult = .ok (ap, asz))
    (htr : pvTranscribeResult env mc th ap asz = .ok (t, m, segs))
    (hnotes : env.notesResult = .error e) :
    (process_video env mc th).transcriptions
      = [⟨some t, some m, true, some asz, some segs, none, none⟩]
    ∧ (process_video env mc th).statusWrites
      = [VideoStatus.downloading, VideoStatus.extracting_audio,
         VideoStatus.transcribing, VideoStatus.generating_notes,
         VideoStatus.completed] := by
  constructor <;>
    simp [process_video, process_videoBody, hfound, hkey, hdl, hex, htr, hnotes]

/-- Closed instance of the non-fatal note-generation theorem at the
concrete environment pvEnvEx. -/
theorem notes_failure_nonfatal_witness :
    (process_video pvEnvEx 2 4).transcriptions
      = [⟨some "hello world", some "whisper-1", true, some 1000,
          some [⟨0, 1, "hello world"⟩], none, none⟩]
    ∧ (process_video pvEnvEx 2 4).statusWrites
      = [VideoStatus.downloading, VideoStatus.extracting_audio,
         VideoStatus.transcribing, VideoStatus.generating_notes,
         VideoStatus.completed] :=
  notes_failure_nonfatal pvEnvEx 2 4 "videos/u1/v1.mp4" "/tmp/v1.mp4"
    "/tmp/v1_audio.mp3" "hello world" "whisper-1" "boom" 1000
    [⟨0, 1, "hello world"⟩] rfl rfl rfl rfl rfl rfl

/-! ## C6: extraction or transcription failure is fatal -/

/-- C6: if audio extraction fails, or transcription fails after a
successful extraction, then exactly one Transcription row is persisted,
carrying only the error message and the processing time (no transcript
text, no segments and in particular no notes), and the job ends in stage
failed. -/
theorem fatal_stage_failure (env : PVEnv) (mc th : Nat) (k p : String)
    (hfound : env.videoFound = true)
    (hkey : env.r2_key = some k)
    (hdl : env.downloadResult = .ok p) :
    (∀ e, env.extractResult = .error e →
      (process_video env mc th).transcriptions
        = [⟨none, none, true, none, none, none, some e⟩]
      ∧ (process_video env mc th).statusWrites.getLast?
          = some VideoStatus.failed)
    ∧ (∀ ap asz e, env.extractResult = .ok (ap, asz) →
        pvTranscribeResult env mc th ap asz = .error e →
        (process_video env mc th).transcriptions
          = [⟨none, none, true, none, none, none, some e⟩]
        ∧ (process_video env mc th).statusWrites.getLast?
            = some VideoStatus.failed) := by
  constructor
  · intro e hex
    constructor <;>
      simp [process_video, process_videoBody, pvFatal, hfound, hkey, hdl, hex]
  · intro ap asz e hex htr
    constructor <;>
      simp [process_video, process_videoBody, pvFatal, hfound, hkey, hdl, hex, htr]

/-- Closed instance of the fatal-failure theorem: one environment with a
failing extraction, one with a failing transcription API. -/
theorem fatal_stage_failure_witness :
    ((process_video pvEnvFailExtract 2 4).transcriptions
        = [⟨none, none, true, none, none, none, some "ffmpeg error: boom"⟩]
      ∧ (process_video pvEnvFailExtract 2 4).statusWrites.getLast?
          = some VideoStatus.failed)
    ∧ ((process_video pvEnvFailTrans 2 4).transcriptions
        = [⟨none, none, true, none, none, none,
            some "Transcription failed: api down"⟩]
      ∧ (process_video pvEnvFailTrans 2 4).statusWrites.getLast?
          = some VideoStatus.failed) :=
  ⟨(fatal_stage_failure pvEnvFailExtract 2 4 "videos/u1/v1.mp4" "/tmp/v1.mp4"
      rfl rfl rfl).1 "ffmpeg error: boom" rfl,
   (fatal_stage_failure pvEnvFailTrans 2 4 "videos/u1/v1.mp4" "/tmp/v1.mp4"
      rfl rfl rfl).2 "/tmp/v1_audio.mp3" 1000 "Transcription failed: api down"
      rfl rfl⟩

/-! ## C7: stage order of a successful run -/

/-- C7: every run of the orchestrator on an R2-stored video that ends in
stage completed persisted exactly the stage sequence downloading,
extracting_audio, transcribing, generating_notes, completed, in that
strict order, each stage entered exactly once and none skipped. -/
theorem successful_run_stage_order (env : PVEnv) (mc th : Nat) (k : String)
    (hkey : env.r2_key = some k)
    (hdone : (process_video env mc th).statusWrites.getLast?
        = some VideoStatus.completed) :
    (process_video env mc th).statusWrites
      = [VideoStatus.downloading, VideoStatus.extracting_audio,
         VideoStatus.transcribing, VideoStatus.generating_notes,
         VideoStatus.completed] := by
  cases hf : env.videoFound with
  | false => simp [process_video, hf] at hdone
  | true =>
    rcases hdl : env.downloadResult with e | p
    · simp [process_video, process_videoBody, pvFatal, hf, hkey, hdl] at hdone
    · rcases hex : env.extractResult with e | ⟨ap, asz⟩
      · simp [process_video, process_videoBody, pvFatal, hf, hkey, hdl, hex]
          at hdone
      · rcases htr : pvTranscribeResult env mc th ap asz with e | ⟨t, m, segs⟩
        · simp [process_video, process_videoBody, pvFatal, hf, hkey, hdl, hex,
            htr] at hdone
        · rcases hnotes : env.notesResult with e | nts
          · simp [process_video, process_videoBody, hf, hkey, hdl, hex, htr,
              hnotes]
          · simp [process_video, process_videoBody, pvUnexpected, hf, hkey,
              hdl, hex, htr, hnotes] at hdone

/-- Closed instance of the stage-order theorem at the concrete
environment pvEnvEx, whose run ends completed. -/
theorem successful_run_stage_order_witness :
    (process_video pvEnvEx 2 4).statusWrites
      = [VideoStatus.downloading, VideoStatus.extracting_audio,
         VideoStatus.transcribing, VideoStatus.generating_notes,
         VideoStatus.completed] :=
  successful_run_stage_order pvEnvEx 2 4 "videos/u1/v1.mp4" rfl rfl

/-! ## C8: fallback model policy -/

/-- A transcribe_audio call made directly with the fallback model makes
exactly one attempt, for any fuel: the retry condition of lines 79-82 is
false for it when the fallback differs from the primary model. -/
theorem transcribe_audioF_fallback_level (oracle : TransOracle)
    (s : TransSettings) (fuel : Nat) (path : String)
    (hne : s.transcription_fallback_model ≠ s.transcription_model) :
    ∃ r, transcribe_audioF oracle s fuel path
        (some s.transcription_fallback_model)
      = some (r, [s.transcription_fallback_model]) := by
  rw [transcribe_audioF]
  rcases h : attemptTranscribe oracle path s.transcription_fallback_model with
    e | ⟨t, segs⟩
  · exact ⟨.error ("Transcription failed: " ++ e), by simp [h, hne]⟩
  · exact ⟨.ok (t, s.transcription_fallback_model, segs), by simp [h]⟩

/-- A transcribe_audio call with the primary model whose primary attempt
fails makes exactly the two attempts primary, fallback (when the fallback
is configured and differs from the primary model). -/
theorem transcribe_audioT_primary_fail_trace (oracle : TransOracle)
    (s : TransSettings) (path e : String)
    (hne : s.transcription_fallback_model ≠ s.transcription_model)
    (hne2 : s.transcription_fallback_model ≠ "")
    (hfail : attemptTranscribe oracle path s.transcription_model = .error e) :
    (transcribe_audioT oracle s path (some s.transcription_model)).2
      = [s.transcription_model, s.transcription_fallback_model] := by
  obtain ⟨r', hr'⟩ := transcribe_audioF_fallback_level oracle s 1 path hne
  rw [transcribe_audioT, transcribe_audioF]
  rcases r' with e2 | rr <;> simp [hfail, hne2, hr']

/-- C8 amended: the fallback-model retry recurses only one level — every
transcribe_audio call attempts at most two models, the configured model
first and the fallback at most once, and a second attempt happens only
for calls made with the primary model — but the fallback is exercised for
the per-chunk calls of the chunked path just as for the non-chunked path:
a chunk whose primary attempt fails is retried once with the fallback
model (all under a configured fallback different from the primary
model). -/
theorem transcription_fallback_policy :
    (∀ (oracle : TransOracle) (s : TransSettings) (path : String)
        (model : Option String) (fuel : Nat), 1 ≤ fuel →
      s.transcription_fallback_model ≠ s.transcription_model →
      ∃ r tr, transcribe_audioF oracle s fuel path model = some (r, tr)
        ∧ tr.length ≤ 2
        ∧ tr.take 1 = [model.getD s.transcription_model]
        ∧ tr.drop 1 ⊆ [s.transcription_fallback_model]
        ∧ (tr.length = 2 →
            model.getD s.transcription_model = s.transcription_model))
    ∧ (∀ (oracle : TransOracle) (s : TransSettings) (mc : Nat)
        (chunks : List (String × Nat)) (p : String) (sz : Nat),
      s.transcription_fallback_model ≠ s.transcription_model →
      s.transcription_fallback_model ≠ "" →
      (p, sz) ∈ chunks →
      (∃ e, attemptTranscribe oracle p s.transcription_model = .error e) →
      (p, s.transcription_fallback_model)
        ∈ (transcribe_audio_chunksT oracle s mc chunks none).2) := by
  constructor
  · intro oracle s path model fuel hfuel hne
    obtain ⟨f, rfl⟩ : ∃ f, fuel = f + 1 := ⟨fuel - 1, by omega⟩
    rcases h : attemptTranscribe oracle path (model.getD s.transcription_model)
      with e | ⟨t, segs⟩
    · by_cases hcond : model.getD s.transcription_model = s.transcription_model
        ∧ s.transcription_fallback_model ≠ ""
      · obtain ⟨r', hr'⟩ :=
          transcribe_audioF_fallback_level oracle s f path hne
        rcases r' with e2 | rr
        · refine ⟨.error ("Transcription failed: " ++ e),
            [model.getD s.transcription_model, s.transcription_fallback_model],
            ?_, by simp, by simp, by simp, fun _ => hcond.1⟩
          rw [transcribe_audioF]
          rw [hcond.1] at h
          simp [h, hcond.1, hcond.2, hr']
        · refine ⟨.ok rr,
            [model.getD s.transcription_model, s.transcription_fallback_model],
            ?_, by simp, by simp, by simp, fun _ => hcond.1⟩
          rw [transcribe_audioF]
          rw [hcond.1] at h
          simp [h, hcond.1, hcond.2, hr']
      · refine ⟨.error ("Transcription failed: " ++ e),
          [model.getD s.transcription_model],
          ?_, by simp, by simp, by simp, by simp⟩
        rw [transcribe_audioF]
        simp [h, hcond]
    · refine ⟨.ok (t, model.getD s.transcription_model, segs),
        [model.getD s.transcription_model],
        ?_, by simp, by simp, by simp, by simp⟩
      rw [transcribe_audioF]
      simp [h]
  · intro oracle s mc chunks p sz hne hne2 hmem hfail
    obtain ⟨e, hfail⟩ := hfail
    have hnonempty : ¬ (chunks.isEmpty = true) := by
      simp only [List.isEmpty_iff]
      exact List.ne_nil_of_mem hmem
    rw [transcribe_audio_chunksT, if_neg hnonempty]
    show (p, s.transcription_fallback_model)
      ∈ ((chunks.map (chunkRun oracle s s.transcription_model)).map
          Prod.snd).flatten
    rw [List.map_map]
    refine List.mem_flatten.mpr
      ⟨(Prod.snd ∘ chunkRun oracle s s.transcription_model) (p, sz),
        List.mem_map_of_mem _ hmem, ?_⟩
    show (p, s.transcription_fallback_model)
      ∈ (transcribe_audioT oracle s p (some s.transcription_model)).2.map
          (fun md => (p, md))
    rw [transcribe_audioT_primary_fail_trace oracle s p e hne hne2 hfail]
    simp

/-- Closed instance of the fallback-policy theorem: the single chunk of a
chunked run whose primary attempt fails is retried with the fallback
model. -/
theorem transcription_fallback_policy_witness :
    ("c0.mp3", "gpt-4o-mini-transcribe")
      ∈ (transcribe_audio_chunksT oracleFb settingsEx 2 [("c0.mp3", 5)] none).2 :=
  transcription_fallback_policy.2 oracleFb settingsEx 2 [("c0.mp3", 5)]
    "c0.mp3" 5 (by decide) (by decide) (List.mem_singleton.mpr rfl)
    ⟨"primary down", rfl⟩

/-- C8 counterexample: a chunked transcription run (default model
configuration, single chunk, primary model failing) attempts the fallback
model for that chunk and succeeds through it — the fallback retry is
exercised for individual chunks, not only for the non-chunked path. -/
theorem chunk_fallback_exercised_counterexample :
    (transcribe_audio_chunksT oracleFb settingsEx 2 [("c0.mp3", 5)] none).2
      = [("c0.mp3", "whisper-1"), ("c0.mp3", "gpt-4o-mini-transcribe")]
    ∧ (transcribe_audio_chunksT oracleFb settingsEx 2 [("c0.mp3", 5)] none).1
      = .ok ("fb text", "whisper-1", []) :=
  ⟨rfl, rfl⟩

/-! ## C9: bounded concurrency -/

/-- Setting a pending slot to running increases the running count by
one. -/
theorem count_running_set_start (l : List TaskPhase) (i : Nat)
    (h : l[i]? = some TaskPhase.pending) :
    (l.set i TaskPhase.running).count TaskPhase.running
      = l.count TaskPhase.running + 1 := by
  induction l generalizing i with
  | nil => simp at h
  | cons a t ih =>
    cases i with
    | zero =>
      simp only [List.getElem?_cons_zero, Option.some.injEq] at h
      subst h
      simp [List.count_cons]
    | succ j =>
      simp only [List.getElem?_cons_succ] at h
      by_cases ha : a = TaskPhase.running <;>
        simp [List.count_cons, ih j h, ha] <;> omega

/-- Setting a running slot to done decreases the running count by one. -/
theorem count_running_set_finish (l : List TaskPhase) (i : Nat)
    (h : l[i]? = some TaskPhase.running) :
    (l.set i TaskPhase.done).count TaskPhase.running + 1
      = l.count TaskPhase.running := by
  induction l generalizing i with
  | nil => simp at h
  | cons a t ih =>
    cases i with
    | zero =>
      simp only [List.getElem?_cons_zero, Option.some.injEq] at h
      subst h
      simp [List.count_cons]
    | succ j =>
      simp only [List.getElem?_cons_succ] at h
      by_cases ha : a = TaskPhase.running <;>
        simp [List.count_cons, ih j h, ha] <;> omega

/-- Semaphore invariant of the scheduler: outstanding calls plus free
slots always equal the capacity. -/
theorem sched_invariant (n k : Nat) (s : SchedState) (h : SchedReach n k s) :
    runningCount s + s.sem = k := by
  induction h with
  | refl =>
    have h0 : (TaskPhase.running == TaskPhase.pending) = false := rfl
    simp [schedInit, runningCount, List.count_replicate, h0]
  | tail hpre hstep ih =>
    rename_i b c
    cases hstep with
    | start i hi hs =>
      have hc := count_running_set_start b.tasks i hi
      simp only [runningCount] at ih ⊢
      omega
    | finish i hi =>
      have hc := count_running_set_finish b.tasks i hi
      simp only [runningCount] at ih ⊢
      omega

/-- C9: in every state the scheduler of transcribe_audio_chunks can
reach with semaphore capacity k, at most k single-chunk transcription
calls are outstanding simultaneously, for every chunk count n. -/
theorem bounded_concurrency (n k : Nat) (s : SchedState)
    (h : SchedReach n k s) : runningCount s ≤ k := by
  have hinv := sched_invariant n k s h
  omega

/-- Closed instance of the concurrency bound: after starting one of three
tasks under capacity 2, one call is outstanding, at most 2. -/
theorem bounded_concurrency_witness :
    runningCount ⟨[TaskPhase.running, TaskPhase.pending, TaskPhase.pending], 1⟩
      ≤ 2 :=
  bounded_concurrency 3 2 _
    (Relation.ReflTransGen.single
      (SchedStep.start (schedInit 3 2) 0 rfl (by decide)))

end Notetaker
